import Mathlib

/-!
# Verification of the cap2geojson converter (`src/cap2geojson/convert.py`)

Shallow embedding of the CAP-alert-to-GeoJSON converter.  Python values
appearing in the alert tree are modelled by `PyObj`; Python floats are
modelled by exact numbers (`ℚ` for parsed decimal literals, `ℝ` where the
trigonometric circle approximation is involved); fallible Python code
(raising `KeyError` / `TypeError` / `ValueError` / `AttributeError`)
returns `Except PyErr`.

String-splitting helpers mirror the Python `str.split` semantics on
`List Char` so that every definition is executable.
-/

/-- The Python exception kinds raised by the code paths modelled here. -/
inductive PyErr where
  | keyError
  | typeError
  | valueError
  | attributeError
  deriving DecidableEq, Repr

/-- A Python value as it occurs in the parsed alert tree and in the
resulting GeoJSON object: `None`, strings, numbers, lists and dicts
(dicts are association lists, preserving insertion order as Python does). -/
inductive PyObj where
  | none
  | str (s : String)
  | num (x : ℝ)
  | list (xs : List PyObj)
  | dict (entries : List (String × PyObj))

/-- `d[k]` on a Python dict: `KeyError` when the key is absent. -/
def pyIndex (entries : List (String × PyObj)) (k : String) : Except PyErr PyObj :=
  match entries.lookup k with
  | some v => .ok v
  | Option.none => .error .keyError

/-- `d.get(k)` on a Python dict: `None` when the key is absent. -/
def dictGet (entries : List (String × PyObj)) (k : String) : PyObj :=
  match entries.lookup k with
  | some v => v
  | Option.none => .none

/-- Indexing a non-dict with a string key raises `TypeError` in Python
(`"x"["k"]`, `None["k"]`, `[..]["k"]` all do). -/
def asDict (v : PyObj) : Except PyErr (List (String × PyObj)) :=
  match v with
  | .dict d => .ok d
  | _ => .error .typeError

/-- Calling a dict method (`.get`) on a non-dict raises `AttributeError`. -/
def asDictAttr (v : PyObj) : Except PyErr (List (String × PyObj)) :=
  match v with
  | .dict d => .ok d
  | _ => .error .attributeError

/-- Calling a str method (`.split`, `.replace`) on a non-str raises
`AttributeError`. -/
def asStr (v : PyObj) : Except PyErr String :=
  match v with
  | .str s => .ok s
  | _ => .error .attributeError

/-! ## String splitting, mirroring Python `str.split` semantics -/

/-- Python `s.split(sep)` for a one-character separator: split at every
occurrence, keeping empty fragments (`"a,,b".split(",") == ["a","","b"]`,
`"".split(",") == [""]`). -/
def splitOnChar (sep : Char) : List Char → List (List Char)
  | [] => [[]]
  | c :: rest =>
    if c = sep then [] :: splitOnChar sep rest
    else
      match splitOnChar sep rest with
      | [] => [[c]]
      | g :: gs => (c :: g) :: gs

/-- Split at every character satisfying `p`, keeping empty fragments. -/
def splitPred (p : Char → Bool) : List Char → List (List Char)
  | [] => [[]]
  | c :: rest =>
    if p c then [] :: splitPred p rest
    else
      match splitPred p rest with
      | [] => [[c]]
      | g :: gs => (c :: g) :: gs

/-- Python `s.split()` (no separator): split on runs of whitespace and
drop the empty fragments. -/
def splitWhitespace (l : List Char) : List (List Char) :=
  (splitPred Char.isWhitespace l).filter (fun t => t ≠ [])

/-! ## Python `float()` on decimal literals

`pyFloat` models `float(s)` on the plain decimal fragment of Python's
float grammar: an optional sign followed by `digits`, `digits.digits`,
`digits.` or `.digits`.  (Python additionally accepts exponents,
`inf`/`nan` and surrounding whitespace; the CAP coordinate strings the
converter consumes are plain decimals, so the model restricts to those.)
The exact value is represented as a rational. -/

/-- Numeric value of a digit string (`0` for the empty string). -/
def digitsVal (l : List Char) : ℕ :=
  l.foldl (fun a c => a * 10 + (c.toNat - 48)) 0

/-- The unsigned decimal part: `digits`, `digits.digits`, `digits.` or
`.digits`, with at least one digit overall. -/
def pyFloatUnsigned (l : List Char) : Option ℚ :=
  match splitOnChar '.' l with
  | [ip] =>
    if ip ≠ [] ∧ ip.all Char.isDigit then some (digitsVal ip) else Option.none
  | [ip, fp] =>
    if (ip ≠ [] ∨ fp ≠ []) ∧ ip.all Char.isDigit ∧ fp.all Char.isDigit then
      some ((digitsVal ip : ℚ) + (digitsVal fp : ℚ) / (10 : ℚ) ^ fp.length)
    else Option.none
  | _ => Option.none

/-- `float(s)` on a token, as an exact rational; `Option.none` models the
`ValueError` raised on a non-numeric token. -/
def pyFloat (l : List Char) : Option ℚ :=
  match l with
  | '-' :: rest => (pyFloatUnsigned rest).map (fun q => -q)
  | '+' :: rest => pyFloatUnsigned rest
  | _ => pyFloatUnsigned l

/-- `float(s)` in the `Except` monad: non-numeric tokens raise `ValueError`. -/
def pyFloatE (l : List Char) : Except PyErr ℚ :=
  match pyFloat l with
  | some q => .ok q
  | Option.none => .error .valueError

/-! ## Namespace preprocessing — `preprocess_alert`

The source performs `re.sub(r"<(/?)cap:(\w+)", r"<\1\2", xml)`.  Since the
replacement reinstates the `<`, the optional `/` and the word characters
unchanged, the substitution deletes the literal characters `cap:` exactly
when they follow `<` or `</` and are followed by at least one word
character; matches cannot overlap (a match must start at `<`, and word
characters are never `<`), so a single left-to-right scan that advances one
character on a failed match is equivalent to `re.sub`. -/

/-- `\w` of the Python `re` module (restricted to its ASCII fragment, which
covers CAP element names): letters, digits and underscore. -/
def isWordChar (c : Char) : Bool :=
  c.isAlphanum || c = '_'

/-- One left-to-right scan implementing
`re.sub(r"<(/?)cap:(\w+)", r"<\1\2", ·)` on the character list: on a
match the characters `cap:` are dropped and scanning resumes at the first
word character; on a failed match the scan advances one character. -/
def stripCapAux : List Char → List Char
  | [] => []
  | '<' :: '/' :: 'c' :: 'a' :: 'p' :: ':' :: w :: rest2 =>
    if isWordChar w then '<' :: '/' :: stripCapAux (w :: rest2)
    else '<' :: stripCapAux ('/' :: 'c' :: 'a' :: 'p' :: ':' :: w :: rest2)
  | '<' :: 'c' :: 'a' :: 'p' :: ':' :: w :: rest2 =>
    if isWordChar w then '<' :: stripCapAux (w :: rest2)
    else '<' :: stripCapAux ('c' :: 'a' :: 'p' :: ':' :: w :: rest2)
  | c :: rest => c :: stripCapAux rest
  termination_by l => l.length
  decreasing_by all_goals simp_arith [List.length]

/-- `preprocess_alert(xml)`: removes the `cap:` prefix from the XML tags,
so `<cap:info>` becomes `<info>` and `</cap:info>` becomes `</info>`. -/
def preprocess_alert (xml : String) : String :=
  String.mk (stripCapAux xml.data)

/-! ### Spec-side description of namespace normalization

The amended C2 statement says: the output is the input text with the
literal characters `cap:` deleted from every occurrence of `<cap:` or
`</cap:` that is followed by a word character, and no other characters
altered.  The following definitions state exactly that, declaratively, in
terms of character positions — independently of the scanning algorithm —
so that the claim can be settled for every raw XML text by comparing
`preprocess_alert` against this description. -/

/-- Position `i` of `l` starts an occurrence of `<cap:` followed by a word
character (an open-tag match of the regex). -/
def is_cap_open_at (l : List Char) (i : ℕ) : Bool :=
  match l.drop i with
  | '<' :: 'c' :: 'a' :: 'p' :: ':' :: w :: _ => isWordChar w
  | _ => false

/-- Position `i` of `l` starts an occurrence of `</cap:` followed by a
word character (a close-tag match of the regex). -/
def is_cap_close_at (l : List Char) (i : ℕ) : Bool :=
  match l.drop i with
  | '<' :: '/' :: 'c' :: 'a' :: 'p' :: ':' :: w :: _ => isWordChar w
  | _ => false

/-- Character position `j` of `l` is deleted: it is one of the four
characters `c`, `a`, `p`, `:` of some match — offsets 1–4 after the `<`
of an open-tag match, or offsets 2–5 after the `<` of a close-tag
match. -/
def removed_at (l : List Char) (j : ℕ) : Bool :=
  ([1, 2, 3, 4].any fun d => decide (d ≤ j) && is_cap_open_at l (j - d))
    || ([2, 3, 4, 5].any fun d => decide (d ≤ j) && is_cap_close_at l (j - d))

/-- The spec-side result: the characters of `l` at the positions that are
not deleted, in their original order — i.e. the input with the `cap:` of
every match removed and no other character altered. -/
def cap_strip_spec (l : List Char) : List Char :=
  ((List.range l.length).filter fun j => !removed_at l j).map
    fun j => l.getD j ' '

/-! ## Winding normalization — `ensure_counter_clockwise`

A Python coordinate "pair" is a list built from `coord.split(",")`, so it
may have any length; `signed_area` unpacks each element with
`x, y = coords[i]`, which raises `ValueError` on a list whose length is
not 2.  The functions are generic over a linear ordered field: the
polygon path instantiates them at `ℚ` (exact values of the parsed decimal
literals), and the statements about rings of the converter use `ℝ`. -/

section Winding

variable {α : Type} [LinearOrderedField α]

/-- The `i`-th term `x1 * y2 - x2 * y1` of the shoelace loop, with
`(x1, y1) = coords[i]` and `(x2, y2) = coords[(i + 1) % n]`. -/
def shoelaceTerm (coords : List (List α)) (i : ℕ) : α :=
  let c1 := coords.getD i []
  let c2 := coords.getD ((i + 1) % coords.length) []
  c1.getD 0 0 * c2.getD 1 0 - c2.getD 0 0 * c1.getD 1 0

/-- `signed_area(coords)`: half the shoelace sum.  The loop body unpacks
`coords[i]` and `coords[(i + 1) % n]` as pairs; when `n > 0` every element
of the list is unpacked this way, so the loop raises `ValueError` exactly
when some element is not a pair (when `n = 0` the loop body never runs and
the result is `0`, matching the vacuous guard). -/
def signed_area (coords : List (List α)) : Except PyErr α :=
  if ∀ c ∈ coords, c.length = 2 then
    .ok ((∑ i in Finset.range coords.length, shoelaceTerm coords i) / 2)
  else .error .valueError

/-- `ensure_counter_clockwise(coords)`: reverse the list when the signed
area is negative (clockwise), otherwise return it unchanged; an unpacking
error inside `signed_area` propagates. -/
def ensure_counter_clockwise (coords : List (List α)) :
    Except PyErr (List (List α)) :=
  match signed_area coords with
  | .error e => .error e
  | .ok a => if a < 0 then .ok coords.reverse else .ok coords

end Winding

/-! ## Circle approximation — `get_all_circle_coords` -/

/-- Python `round(x, 5)`: rounding to 5 decimal places.  (Python uses
round-half-to-even at exact ties; the model uses `round`, which differs
only on values whose scaled fractional part is exactly `1/2` — both
satisfy `|round5 x - x| ≤ 1/200000`, the only property used.) -/
noncomputable def round5 (x : ℝ) : ℝ :=
  (round (x * 100000) : ℤ) / 100000

/-- `get_circle_coord(theta, x_centre, y_centre, radius)`: the point of
the circle at angle `theta`, each coordinate rounded to 5 decimals. -/
noncomputable def get_circle_coord (theta x_centre y_centre radius : ℝ) :
    List ℝ :=
  [round5 (radius * Real.cos theta + x_centre),
   round5 (radius * Real.sin theta + y_centre)]

/-- `get_all_circle_coords(x_centre, y_centre, radius, n_points)`: the
`n_points`-gon approximation of the circle, with the first coordinate
appended again at the end to close the ring.  (`circle_coords.append
(circle_coords[0])` is modelled by `++ circle_coords.take 1`; the source
is only called with `n_points = 100`, where the list is nonempty and the
two agree.) -/
noncomputable def get_all_circle_coords (x_centre y_centre radius : ℝ)
    (n_points : ℕ) : List (List ℝ) :=
  let thetas := (List.range n_points).map
    (fun i : ℕ => (i : ℝ) / (n_points : ℝ) * (2 * Real.pi))
  let circle_coords := thetas.map
    (fun theta => get_circle_coord theta x_centre y_centre radius)
  circle_coords ++ circle_coords.take 1

/-! ## Single-area coordinate extraction — `get_polygon_coordinates` -/

/-- The circle branch of `get_polygon_coordinates`:
`centre, radius = single_area["circle"].split(" ")` (exactly two
space-separated parts, else `ValueError`), `radius = float(radius)`,
`x_centre, y_centre = map(float, centre.split(","))` (exactly two
comma-separated numeric parts, else `ValueError`; the model performs the
arity check before the conversions — Python interleaves them lazily, but
every failure is a `ValueError` either way), then the 100-point circle. -/
noncomputable def circle_ring (cv : PyObj) : Except PyErr (List (List ℝ)) := do
  let s ← asStr cv
  match splitOnChar ' ' s.data with
  | [centre, radiusStr] => do
    let radius ← pyFloatE radiusStr
    match splitOnChar ',' centre with
    | [xs, ys] => do
      let x_centre ← pyFloatE xs
      let y_centre ← pyFloatE ys
      return get_all_circle_coords (x_centre : ℝ) (y_centre : ℝ) (radius : ℝ) 100
    | _ => .error .valueError
  | _ => .error .valueError

/-- `single_area["polygon"].replace("\n", "").split()`: newlines removed,
then split on whitespace runs. -/
def polygon_tokens (s : String) : List (List Char) :=
  splitWhitespace (s.data.filter (fun c => c ≠ '\n'))

/-- `[list(map(float, coord.split(","))) for coord in polygon_str]`: each
token split at commas and converted; a non-numeric component raises
`ValueError`.  Note the comma-count of a token is *not* checked here. -/
def parse_polygon_list (s : String) : Except PyErr (List (List ℚ)) :=
  (polygon_tokens s).mapM (fun t => (splitOnChar ',' t).mapM pyFloatE)

/-- The polygon branch of `get_polygon_coordinates`: parse the token list
and pass it through `ensure_counter_clockwise` (performed on the exact
rational values, then embedded into `ℝ` for the common ring type). -/
def polygon_ring (pv : PyObj) : Except PyErr (List (List ℝ)) := do
  let s ← asStr pv
  let polygon_list ← parse_polygon_list s
  let ring ← ensure_counter_clockwise polygon_list
  return ring.map (fun c => c.map (fun q : ℚ => (q : ℝ)))

/-- `get_polygon_coordinates(single_area)`: dispatch on the `circle` key,
then the `polygon` key, else return the empty list.  (The argument is the
area dict; non-dict areas are handled by the callers.) -/
noncomputable def get_polygon_coordinates
    (single_area : List (String × PyObj)) : Except PyErr (List (List ℝ)) :=
  match single_area.lookup "circle" with
  | some cv => circle_ring cv
  | Option.none =>
    match single_area.lookup "polygon" with
    | some pv => polygon_ring pv
    | Option.none => .ok []

/-! ## Geometry object — `get_geometry` -/

/-- A ring as a GeoJSON coordinate array value. -/
def ring_json (ring : List (List ℝ)) : PyObj :=
  .list (ring.map (fun c => .list (c.map PyObj.num)))

/-- The per-area step of the MultiPolygon branch: `[get_polygon_coordinates
(a)]` (each polygon is a one-element list of rings).  Non-dict entries are
modelled as `TypeError` (CAP areas are mappings; Python's `"circle" in a`
would not raise on a `str` or `list` entry, a case no claim exercises). -/
noncomputable def multi_polygon_entry (a : PyObj) : Except PyErr PyObj := do
  let d ← asDict a
  let ring ← get_polygon_coordinates d
  return PyObj.list [ring_json ring]

/-- `get_geometry(area)`: a list of areas becomes a MultiPolygon, anything
else is treated as a single area and becomes a Polygon with one ring. -/
noncomputable def get_geometry (area : PyObj) : Except PyErr PyObj :=
  match area with
  | .list areas => do
    let polys ← areas.mapM multi_polygon_entry
    return PyObj.dict
      [("type", .str "MultiPolygon"), ("coordinates", .list polys)]
  | _ => do
    let d ← asDict area
    let ring ← get_polygon_coordinates d
    return PyObj.dict
      [("type", .str "Polygon"), ("coordinates", .list [ring_json ring])]

/-! ## Properties extraction — `get_properties` -/

/-- `get_area_desc(area)`: `area["areaDesc"]` for a single area dict
(raising `KeyError` when absent), and `", ".join([a["areaDesc"] for a in
area])` for a list of areas (each entry must be a dict with an `areaDesc`
string, else `TypeError`).  Iterating any other value raises `TypeError`,
except the empty string, over which Python's `for` loop yields nothing and
`join` returns `""`. -/
def get_area_desc (area : PyObj) : Except PyErr PyObj :=
  match area with
  | .dict d => pyIndex d "areaDesc"
  | .list items => do
    let descs ← items.mapM (fun a => do
      let d ← asDict a
      pyIndex d "areaDesc")
    let strs ← descs.mapM (fun v =>
      match v with
      | .str s => Except.ok s
      | _ => Except.error PyErr.typeError)
    return PyObj.str (String.intercalate ", " strs)
  | .str s => if s.data = [] then .ok (.str "") else .error .typeError
  | _ => .error .typeError

/-- `get_properties(alert)`: `info = alert["info"]`, then the flat dict of
the twenty-one fields.  `alert` must be a dict (`TypeError` otherwise, as
for any string indexing of a non-dict); `info` must be a dict for the
`.get` calls (`AttributeError` otherwise). -/
def get_properties (alert : PyObj) :
    Except PyErr (List (String × PyObj)) := do
  let alertD ← asDict alert
  let info ← pyIndex alertD "info"
  let infoD ← asDictAttr info
  let areaDesc ← get_area_desc (dictGet infoD "area")
  return [("identifier", dictGet alertD "identifier"),
          ("sender", dictGet alertD "sender"),
          ("sent", dictGet alertD "sent"),
          ("status", dictGet alertD "status"),
          ("msgType", dictGet alertD "msgType"),
          ("scope", dictGet alertD "scope"),
          ("category", dictGet infoD "category"),
          ("event", dictGet infoD "event"),
          ("urgency", dictGet infoD "urgency"),
          ("severity", dictGet infoD "severity"),
          ("certainty", dictGet infoD "certainty"),
          ("effective", dictGet infoD "effective"),
          ("onset", dictGet infoD "onset"),
          ("expires", dictGet infoD "expires"),
          ("senderName", dictGet infoD "senderName"),
          ("headline", dictGet infoD "headline"),
          ("description", dictGet infoD "description"),
          ("instruction", dictGet infoD "instruction"),
          ("web", dictGet infoD "web"),
          ("contact", dictGet infoD "contact"),
          ("areaDesc", areaDesc)]

/-! ## Orchestrator — `to_geojson`

`xmltodict.parse` and the float formatting inside `json.dumps` are
external collaborators (third-party / standard library), modelled as
parameters: `parse` turns the preprocessed XML text into the alert tree,
and `dumps` is the JSON text serializer that `json.dumps(result,
indent=4)` applies to the assembled object. -/

/-- The assembled `{"type": "FeatureCollection", "features": [{"type":
"Feature", "properties": ..., "geometry": ...}]}` object. -/
def feature_collection (props : List (String × PyObj)) (geom : PyObj) :
    PyObj :=
  .dict [("type", .str "FeatureCollection"),
         ("features", .list [.dict [("type", .str "Feature"),
                                    ("properties", .dict props),
                                    ("geometry", geom)]])]

/-- `to_geojson(xml)`: preprocess, parse, extract `alert`, compute
properties and geometry (from `alert["info"]["area"]`), assemble the
FeatureCollection — and return `json.dumps(result, indent=4)`, i.e. the
serialized *text* of the object. -/
noncomputable def to_geojson (parse : String → Except PyErr PyObj)
    (dumps : PyObj → String) (xml : String) : Except PyErr String := do
  let processed_xml := preprocess_alert xml
  let data ← parse processed_xml
  let dataD ← asDict data
  let alert ← pyIndex dataD "alert"
  let alert_properties ← get_properties alert
  let alertD ← asDict alert
  let info ← pyIndex alertD "info"
  let infoD ← asDict info
  let area ← pyIndex infoD "area"
  let alert_geometry ← get_geometry area
  return dumps (feature_collection alert_properties alert_geometry)

/-! ## Token grammar of `circle` and `polygon` strings (spec §4.3.1/§7)

The grammar the spec expects: a `circle` string is
`"<lon>,<lat> <radius>"` (one space, the centre a two-component
comma-separated numeric pair, the radius numeric); a `polygon` string is a
whitespace/newline-separated sequence of `"<lon>,<lat>"` numeric pair
tokens. -/

/-- A numeric token per the `float()` model. -/
def float_token (t : List Char) : Bool :=
  (pyFloat t).isSome

/-- A well-formed `"<lon>,<lat>"` pair token: exactly one comma separating
two numeric components. -/
def pair_token (t : List Char) : Bool :=
  match splitOnChar ',' t with
  | [a, b] => float_token a && float_token b
  | _ => false

/-- A well-formed `circle` string: `"<lon>,<lat> <radius>"`. -/
def circle_well_formed (s : String) : Bool :=
  match splitOnChar ' ' s.data with
  | [centre, radiusStr] => pair_token centre && float_token radiusStr
  | _ => false

/-- A well-formed `polygon` string: every whitespace-separated token is a
well-formed pair token. -/
def polygon_well_formed (s : String) : Bool :=
  (polygon_tokens s).all pair_token

/-! # Theorems

## Winding normalization: helper lemmas -/

lemma revGetD {β : Type} (l : List β) (d : β) (i : ℕ) (h : i < l.length) :
    l.reverse.getD i d = l.getD (l.length - 1 - i) d := by
  have h1 : i < l.reverse.length := by simpa using h
  have h2 : l.length - 1 - i < l.length := by omega
  rw [List.getD_eq_getElem?_getD, List.getD_eq_getElem?_getD,
      List.getElem?_eq_getElem h1, List.getElem?_eq_getElem h2]
  simp [List.getElem_reverse]

/-- The index map `i ↦ n - 1 - (i + 1) % n` that matches the shoelace
terms of a reversed ring with those of the original: following it by a
cyclic successor step lands on `n - 1 - i`. -/
lemma shoelace_index_key (n i : ℕ) (hi : i < n) :
    (n - 1 - (i + 1) % n + 1) % n = n - 1 - i := by
  rcases Nat.lt_or_ge (i + 1) n with hlt | hge
  · rw [Nat.mod_eq_of_lt hlt, Nat.mod_eq_of_lt (by omega)]
    omega
  · have hi1 : i + 1 = n := by omega
    have h2 : n - 1 - n % n + 1 = n := by
      rw [Nat.mod_self]; omega
    rw [hi1, h2, Nat.mod_self]
    omega

section WindingLemmas

variable {α : Type} [LinearOrderedField α]

lemma sum_shoelace_reverse (l : List (List α)) :
    ∑ i in Finset.range l.length, shoelaceTerm l.reverse i
      = -∑ i in Finset.range l.length, shoelaceTerm l i := by
  rcases Nat.eq_zero_or_pos l.length with h0 | hpos
  · simp [h0]
  · have hterm : ∀ i ∈ Finset.range l.length,
        shoelaceTerm l.reverse i
          = -shoelaceTerm l (l.length - 1 - (i + 1) % l.length) := by
      intro i hi
      rw [Finset.mem_range] at hi
      have hmod : (i + 1) % l.length < l.length := Nat.mod_lt _ hpos
      have hσ : l.length - 1 - (i + 1) % l.length < l.length := by omega
      unfold shoelaceTerm
      simp only [List.length_reverse]
      rw [revGetD l [] i hi, revGetD l [] _ hmod, shoelace_index_key _ _ hi]
      ring
    rw [Finset.sum_congr rfl hterm, Finset.sum_neg_distrib]
    congr 1
    exact Finset.sum_nbij'
      (fun i => l.length - 1 - (i + 1) % l.length)
      (fun j => l.length - 1 - (j + 1) % l.length)
      (fun a ha => by
        rw [Finset.mem_range] at ha ⊢
        show l.length - 1 - (a + 1) % l.length < l.length
        have := Nat.mod_lt (a + 1) hpos
        omega)
      (fun a ha => by
        rw [Finset.mem_range] at ha ⊢
        show l.length - 1 - (a + 1) % l.length < l.length
        have := Nat.mod_lt (a + 1) hpos
        omega)
      (fun a ha => by
        rw [Finset.mem_range] at ha
        show l.length - 1 -
            (l.length - 1 - (a + 1) % l.length + 1) % l.length = a
        rw [shoelace_index_key _ _ ha]
        omega)
      (fun a ha => by
        rw [Finset.mem_range] at ha
        show l.length - 1 -
            (l.length - 1 - (a + 1) % l.length + 1) % l.length = a
        rw [shoelace_index_key _ _ ha]
        omega)
      (fun a _ => rfl)

lemma signed_area_reverse (l : List (List α)) :
    signed_area l.reverse = (signed_area l).map (fun a => -a) := by
  unfold signed_area
  by_cases h : ∀ c ∈ l, c.length = 2
  · rw [if_pos (fun c hc => h c (List.mem_reverse.mp hc)), if_pos h]
    have : (∑ i in Finset.range l.reverse.length, shoelaceTerm l.reverse i)
        = -∑ i in Finset.range l.length, shoelaceTerm l i := by
      rw [List.length_reverse, sum_shoelace_reverse]
    rw [this]
    simp [Except.map]
    ring
  · rw [if_neg (fun hh => h (fun c hc => hh c (List.mem_reverse.mpr hc))),
        if_neg h]
    rfl

lemma ecc_ok_cases (l r : List (List α))
    (h : ensure_counter_clockwise l = .ok r) : r = l ∨ r = l.reverse := by
  unfold ensure_counter_clockwise at h
  cases hsa : signed_area l with
  | error e =>
    simp only [hsa] at h
    exact Except.noConfusion h
  | ok a =>
    simp only [hsa] at h
    by_cases hlt : a < 0
    · rw [if_pos hlt] at h
      exact Or.inr (Except.ok.inj h).symm
    · rw [if_neg hlt] at h
      exact Or.inl (Except.ok.inj h).symm

lemma ecc_ok_fixed (l r : List (List α))
    (h : ensure_counter_clockwise l = .ok r) :
    ensure_counter_clockwise r = .ok r := by
  unfold ensure_counter_clockwise at h ⊢
  cases hsa : signed_area l with
  | error e =>
    simp only [hsa] at h
    exact Except.noConfusion h
  | ok a =>
    simp only [hsa] at h
    by_cases hlt : a < 0
    · rw [if_pos hlt] at h
      have hr : r = l.reverse := (Except.ok.inj h).symm
      have hput : signed_area r = Except.ok (-a) := by
        rw [hr, signed_area_reverse, hsa]
        rfl
      have hnn : ¬(-a < 0) := by linarith
      simp only [hput, if_neg hnn]
    · rw [if_neg hlt] at h
      have hr : r = l := (Except.ok.inj h).symm
      rw [hr]
      simp only [hsa, if_neg hlt]

end WindingLemmas

/-! ## Claims C4 and C9 -/

/-- C4: for every list of coordinate pairs, applying
`ensure_counter_clockwise` twice yields the same result as applying it
once (idempotence of winding normalization); proved for every coordinate
list, erroneous ones propagating their error through the second
application. -/
theorem claim_C4_winding_idempotent (coords : List (List ℚ)) :
    (ensure_counter_clockwise coords).bind ensure_counter_clockwise
      = ensure_counter_clockwise coords := by
  cases h : ensure_counter_clockwise coords with
  | error e => rfl
  | ok r =>
    show Except.bind (Except.ok r) ensure_counter_clockwise = Except.ok r
    exact ecc_ok_fixed coords r h

/-- C9: for every list of coordinate pairs, the result of
`ensure_counter_clockwise` is either exactly the input sequence or exactly
its reversal: no coordinate pair is altered, added or removed, only the
order of the whole sequence can change. -/
theorem claim_C9_winding_reverses_or_keeps (coords r : List (List ℚ))
    (h : ensure_counter_clockwise coords = .ok r) :
    r = coords ∨ r = coords.reverse :=
  ecc_ok_cases coords r h

theorem claim_C9_winding_reverses_or_keeps_witness :
    ensure_counter_clockwise ([[0, 0], [1, 0], [0, 1]] : List (List ℚ))
        = Except.ok [[0, 0], [1, 0], [0, 1]]
      ∧ (([[0, 0], [1, 0], [0, 1]] : List (List ℚ)) = [[0, 0], [1, 0], [0, 1]]
          ∨ ([[0, 0], [1, 0], [0, 1]] : List (List ℚ))
              = List.reverse [[0, 0], [1, 0], [0, 1]]) :=
  ⟨by norm_num [ensure_counter_clockwise, signed_area, shoelaceTerm,
      Finset.sum_range_succ, List.getD],
   claim_C9_winding_reverses_or_keeps _ _
     (by norm_num [ensure_counter_clockwise, signed_area, shoelaceTerm,
           Finset.sum_range_succ, List.getD])⟩

/-! ## Claim C10: circle dispatch takes precedence -/

/-- C10: for every area mapping that contains a `circle` key,
`get_polygon_coordinates` processes the circle string and ignores the
polygon string entirely — the result is exactly the circle branch applied
to the `circle` value, whatever else the mapping contains. -/
theorem claim_C10_circle_takes_precedence
    (single_area : List (String × PyObj)) (cv : PyObj)
    (h : single_area.lookup "circle" = some cv) :
    get_polygon_coordinates single_area = circle_ring cv := by
  unfold get_polygon_coordinates
  rw [h]

theorem claim_C10_circle_takes_precedence_witness :
    ([("circle", PyObj.str "0,0 1"),
      ("polygon", PyObj.str "1,1 2,2 1,1")].lookup "circle"
        = some (PyObj.str "0,0 1"))
      ∧ get_polygon_coordinates
          [("circle", PyObj.str "0,0 1"), ("polygon", PyObj.str "1,1 2,2 1,1")]
          = circle_ring (PyObj.str "0,0 1") :=
  ⟨rfl, claim_C10_circle_takes_precedence _ _ rfl⟩

/-! ## `Except` bind helpers and `mapM` extraction lemmas -/

lemma exbind_ok {γ δ : Type} (a : γ) (f : γ → Except PyErr δ) :
    (Except.ok a >>= f) = f a := rfl

lemma exbind_error {γ δ : Type} (e : PyErr) (f : γ → Except PyErr δ) :
    ((Except.error e : Except PyErr γ) >>= f) = Except.error e := rfl

lemma mapM_ok_cons {β γ : Type} (f : β → Except PyErr γ) (a : β) (l : List β)
    (ys : List γ) (h : (a :: l).mapM f = .ok ys) :
    ∃ y zs, f a = .ok y ∧ l.mapM f = .ok zs ∧ ys = y :: zs := by
  rw [List.mapM_cons] at h
  cases hfa : f a with
  | error e => rw [hfa, exbind_error] at h; exact Except.noConfusion h
  | ok y =>
    rw [hfa, exbind_ok] at h
    cases hml : l.mapM f with
    | error e => rw [hml, exbind_error] at h; exact Except.noConfusion h
    | ok zs =>
      rw [hml, exbind_ok] at h
      exact ⟨y, zs, rfl, rfl, (Except.ok.inj h).symm⟩

/-! ## Claim C6: area shape decides Polygon vs MultiPolygon -/

lemma multi_polygon_entry_shape (a : PyObj) (v : PyObj)
    (h : multi_polygon_entry a = .ok v) :
    ∃ ring, v = PyObj.list [ring_json ring] := by
  unfold multi_polygon_entry at h
  cases hd : asDict a with
  | error e => rw [hd, exbind_error] at h; exact Except.noConfusion h
  | ok d =>
    rw [hd, exbind_ok] at h
    cases hr : get_polygon_coordinates d with
    | error e => rw [hr, exbind_error] at h; exact Except.noConfusion h
    | ok ring =>
      rw [hr, exbind_ok] at h
      exact ⟨ring, (Except.ok.inj h).symm⟩

lemma mapM_multi_polygon_shape :
    ∀ (areas : List PyObj) (ys : List PyObj),
      areas.mapM multi_polygon_entry = .ok ys →
      ∃ rings : List (List (List ℝ)), rings.length = areas.length ∧
        ys = rings.map (fun r => PyObj.list [ring_json r])
  | [], ys, h => by
    rw [List.mapM_nil] at h
    exact ⟨[], rfl, by
      have : ys = [] := (Except.ok.inj h).symm
      simp [this]⟩
  | a :: areas, ys, h => by
    obtain ⟨y, zs, hfa, hml, hys⟩ := mapM_ok_cons _ a areas ys h
    obtain ⟨ring, hring⟩ := multi_polygon_entry_shape a y hfa
    obtain ⟨rings, hlen, hzs⟩ := mapM_multi_polygon_shape areas zs hml
    exact ⟨ring :: rings, by simp [hlen], by simp [hys, hring, hzs]⟩

/-- C6: a single area mapping yields a geometry of type `"Polygon"` whose
coordinates list has exactly one ring; a list of `k` area mappings yields
type `"MultiPolygon"` whose coordinates list has length `k`, each element
a one-ring polygon (no holes). -/
theorem claim_C6_geometry_type_by_area_shape :
    (∀ (d : List (String × PyObj)) (g : PyObj),
        get_geometry (.dict d) = .ok g →
        ∃ ring, g = PyObj.dict [("type", .str "Polygon"),
          ("coordinates", .list [ring_json ring])])
      ∧ (∀ (areas : List PyObj) (g : PyObj),
          get_geometry (.list areas) = .ok g →
          ∃ rings : List (List (List ℝ)), rings.length = areas.length ∧
            g = PyObj.dict [("type", .str "MultiPolygon"),
              ("coordinates",
               .list (rings.map (fun r => PyObj.list [ring_json r])))]) := by
  constructor
  · intro d g h
    unfold get_geometry at h
    rw [show asDict (PyObj.dict d) = .ok d from rfl, exbind_ok] at h
    cases hr : get_polygon_coordinates d with
    | error e => rw [hr, exbind_error] at h; exact Except.noConfusion h
    | ok ring =>
      rw [hr, exbind_ok] at h
      exact ⟨ring, (Except.ok.inj h).symm⟩
  · intro areas g h
    have h2 : (areas.mapM multi_polygon_entry >>= fun polys =>
        (pure (PyObj.dict [("type", PyObj.str "MultiPolygon"),
          ("coordinates", PyObj.list polys)]) : Except PyErr PyObj))
        = .ok g := h
    cases hm : areas.mapM multi_polygon_entry with
    | error e => rw [hm, exbind_error] at h2; exact Except.noConfusion h2
    | ok polys =>
      rw [hm, exbind_ok] at h2
      obtain ⟨rings, hlen, hpolys⟩ := mapM_multi_polygon_shape areas polys hm
      exact ⟨rings, hlen, by rw [← (Except.ok.inj h2), hpolys]⟩

theorem claim_C6_geometry_type_by_area_shape_witness :
    (get_geometry (PyObj.dict [("areaDesc", PyObj.str "X")])
        = .ok (PyObj.dict [("type", .str "Polygon"),
            ("coordinates", .list [ring_json []])]))
      ∧ (get_geometry (PyObj.list [PyObj.dict [("areaDesc", PyObj.str "X")]])
          = .ok (PyObj.dict [("type", .str "MultiPolygon"),
              ("coordinates", .list [PyObj.list [ring_json []]])]))
      ∧ (∃ ring, PyObj.dict [("type", .str "Polygon"),
            ("coordinates", .list [ring_json []])]
          = PyObj.dict [("type", .str "Polygon"),
              ("coordinates", .list [ring_json ring])])
      ∧ (∃ rings : List (List (List ℝ)),
          rings.length = [PyObj.dict [("areaDesc", PyObj.str "X")]].length ∧
            PyObj.dict [("type", .str "MultiPolygon"),
              ("coordinates", .list [PyObj.list [ring_json []]])]
          = PyObj.dict [("type", .str "MultiPolygon"),
              ("coordinates",
               .list (rings.map (fun r => PyObj.list [ring_json r])))]) :=
  ⟨by rfl, by rfl,
   claim_C6_geometry_type_by_area_shape.1 [("areaDesc", PyObj.str "X")] _ (by rfl),
   claim_C6_geometry_type_by_area_shape.2 [PyObj.dict [("areaDesc", PyObj.str "X")]] _ (by rfl)⟩

/-! ## Claim C3: every returned ring is closed -/

lemma closed_append_take {β : Type} (c : List β) (hc : c ≠ []) :
    (c ++ c.take 1).head? = (c ++ c.take 1).getLast? := by
  cases c with
  | nil => exact absurd rfl hc
  | cons a tl =>
    show (a :: (tl ++ [a])).head? = ((a :: tl) ++ [a]).getLast?
    rw [List.getLast?_concat]
    rfl

lemma get_all_circle_coords_closed (x y rad : ℝ) (n : ℕ) (hn : 0 < n) :
    (get_all_circle_coords x y rad n).head?
      = (get_all_circle_coords x y rad n).getLast? := by
  unfold get_all_circle_coords
  apply closed_append_take
  intro hemp
  have hlen := congrArg List.length hemp
  simp only [List.length_map, List.length_range, List.length_nil] at hlen
  omega

lemma circle_ring_ok (cv : PyObj) (r : List (List ℝ))
    (h : circle_ring cv = .ok r) :
    ∃ x y rad, r = get_all_circle_coords x y rad 100 := by
  unfold circle_ring at h
  cases hs : asStr cv with
  | error e => rw [hs, exbind_error] at h; exact Except.noConfusion h
  | ok s =>
    rw [hs, exbind_ok] at h
    rcases hsp : splitOnChar ' ' s.data with _ | ⟨centre, _ | ⟨radiusStr, _ | _⟩⟩ <;>
      rw [hsp] at h
    · exact Except.noConfusion h
    · exact Except.noConfusion h
    · have h2 : (pyFloatE radiusStr >>= fun radius =>
          (match splitOnChar ',' centre with
           | [xs, ys] => do
             let x_centre ← pyFloatE xs
             let y_centre ← pyFloatE ys
             pure (get_all_circle_coords (x_centre : ℝ) (y_centre : ℝ)
               (radius : ℝ) 100)
           | _ => .error .valueError : Except PyErr (List (List ℝ)))) =
          .ok r := h
      cases hrad : pyFloatE radiusStr with
      | error e => rw [hrad, exbind_error] at h2; exact Except.noConfusion h2
      | ok rad =>
        rw [hrad, exbind_ok] at h2
        rcases hsc : splitOnChar ',' centre with _ | ⟨xs, _ | ⟨ys, _ | _⟩⟩ <;>
          rw [hsc] at h2
        · exact Except.noConfusion h2
        · exact Except.noConfusion h2
        · have h3 : (pyFloatE xs >>= fun x_centre =>
              pyFloatE ys >>= fun y_centre =>
              (pure (get_all_circle_coords (x_centre : ℝ) (y_centre : ℝ)
                (rad : ℝ) 100) : Except PyErr (List (List ℝ)))) = .ok r := h2
          cases hx : pyFloatE xs with
          | error e => rw [hx, exbind_error] at h3; exact Except.noConfusion h3
          | ok x =>
            rw [hx, exbind_ok] at h3
            cases hy : pyFloatE ys with
            | error e => rw [hy, exbind_error] at h3; exact Except.noConfusion h3
            | ok y =>
              rw [hy, exbind_ok] at h3
              exact ⟨x, y, rad, (Except.ok.inj h3).symm⟩
        · exact Except.noConfusion h2
    · exact Except.noConfusion h

lemma polygon_ring_ok (pv : PyObj) (r : List (List ℝ))
    (h : polygon_ring pv = .ok r) :
    ∃ s l rr, asStr pv = .ok s ∧ parse_polygon_list s = .ok l ∧
      ensure_counter_clockwise l = .ok rr ∧
      r = rr.map (fun c => c.map (fun q : ℚ => (q : ℝ))) := by
  unfold polygon_ring at h
  cases hs : asStr pv with
  | error e => rw [hs, exbind_error] at h; exact Except.noConfusion h
  | ok s =>
    rw [hs, exbind_ok] at h
    cases hp : parse_polygon_list s with
    | error e => rw [hp, exbind_error] at h; exact Except.noConfusion h
    | ok l =>
      rw [hp, exbind_ok] at h
      cases he : ensure_counter_clockwise l with
      | error e => rw [he, exbind_error] at h; exact Except.noConfusion h
      | ok rr =>
        rw [he, exbind_ok] at h
        exact ⟨s, l, rr, rfl, hp, he, (Except.ok.inj h).symm⟩

/-- C3: for every area mapping (circle-shaped, polygon-shaped with a
closed input ring, or neither), every ring returned by
`get_polygon_coordinates` has its first and last coordinate pairs equal
(vacuously so for the empty ring of a shapeless area). -/
theorem claim_C3_rings_closed (single_area : List (String × PyObj))
    (r : List (List ℝ))
    (hclosed : ∀ (pv : PyObj) (s : String) (l : List (List ℚ)),
        single_area.lookup "polygon" = some pv → asStr pv = .ok s →
        parse_polygon_list s = .ok l → l.head? = l.getLast?)
    (h : get_polygon_coordinates single_area = .ok r) :
    r.head? = r.getLast? := by
  unfold get_polygon_coordinates at h
  cases hc : single_area.lookup "circle" with
  | some cv =>
    rw [hc] at h
    obtain ⟨x, y, rad, hr⟩ := circle_ring_ok cv r h
    rw [hr]
    exact get_all_circle_coords_closed x y rad 100 (by norm_num)
  | none =>
    rw [hc] at h
    cases hp : single_area.lookup "polygon" with
    | some pv =>
      rw [hp] at h
      obtain ⟨s, l, rr, hs, hl, he, hr⟩ := polygon_ring_ok pv r h
      have hlc : l.head? = l.getLast? := hclosed pv s l hp hs hl
      have hrrc : rr.head? = rr.getLast? := by
        rcases ecc_ok_cases l rr he with h1 | h1
        · rw [h1]; exact hlc
        · rw [h1, List.head?_reverse, List.getLast?_reverse]
          exact hlc.symm
      rw [hr]
      simp only [List.head?_map, List.getLast?_map, hrrc]
    | none =>
      rw [hp] at h
      have : r = [] := (Except.ok.inj h).symm
      rw [this]
      rfl

theorem claim_C3_rings_closed_witness :
    (∀ (pv : PyObj) (s : String) (l : List (List ℚ)),
        [("circle", PyObj.str "3,4 2")].lookup "polygon" = some pv →
        asStr pv = .ok s → parse_polygon_list s = .ok l →
        l.head? = l.getLast?)
      ∧ get_polygon_coordinates [("circle", PyObj.str "3,4 2")]
          = .ok (get_all_circle_coords ((3 : ℚ) : ℝ) ((4 : ℚ) : ℝ)
              ((2 : ℚ) : ℝ) 100)
      ∧ (get_all_circle_coords ((3 : ℚ) : ℝ) ((4 : ℚ) : ℝ)
            ((2 : ℚ) : ℝ) 100).head?
          = (get_all_circle_coords ((3 : ℚ) : ℝ) ((4 : ℚ) : ℝ)
              ((2 : ℚ) : ℝ) 100).getLast? :=
  ⟨fun _ _ _ hp => Option.noConfusion hp, by rfl,
   claim_C3_rings_closed [("circle", PyObj.str "3,4 2")] _
     (fun _ _ _ hp => Option.noConfusion hp) (by rfl)⟩

/-! ## Claim C8: malformed geometry strings raise errors -/

lemma pyFloatE_of_not_float (t : List Char) (h : float_token t = false) :
    pyFloatE t = .error .valueError := by
  unfold float_token at h
  cases hp : pyFloat t with
  | none => simp [pyFloatE, hp]
  | some q => rw [hp] at h; exact absurd h (by simp)

lemma float_token_of_ok (t : List Char) (q : ℚ) (h : pyFloatE t = .ok q) :
    float_token t = true := by
  unfold pyFloatE at h
  cases hp : pyFloat t with
  | none => rw [hp] at h; exact Except.noConfusion h
  | some q' => simp [float_token, hp]

lemma pyFloatE_error_kind (t : List Char) (e : PyErr)
    (h : pyFloatE t = .error e) : e = PyErr.valueError := by
  unfold pyFloatE at h
  cases hp : pyFloat t with
  | none => rw [hp] at h; exact (Except.error.inj h).symm
  | some q => rw [hp] at h; exact Except.noConfusion h

lemma mapM_ok_length {β γ : Type} (f : β → Except PyErr γ) :
    ∀ (l : List β) (ys : List γ), l.mapM f = .ok ys → ys.length = l.length
  | [], ys, h => by
    rw [List.mapM_nil] at h
    rw [← Except.ok.inj h]
    rfl
  | a :: l, ys, h => by
    obtain ⟨y, zs, _, hml, hys⟩ := mapM_ok_cons f a l ys h
    rw [hys]
    simp [mapM_ok_length f l zs hml]

lemma mapM_ok_mem {β γ : Type} (f : β → Except PyErr γ) :
    ∀ (l : List β) (ys : List γ) (a : β), l.mapM f = .ok ys → a ∈ l →
      ∃ b, b ∈ ys ∧ f a = .ok b
  | [], _, a, _, ha => absurd ha (List.not_mem_nil a)
  | x :: l, ys, a, h, ha => by
    obtain ⟨y, zs, hfx, hml, hys⟩ := mapM_ok_cons f x l ys h
    rcases List.mem_cons.mp ha with rfl | ha2
    · exact ⟨y, by simp [hys], hfx⟩
    · obtain ⟨b, hb, hfb⟩ := mapM_ok_mem f l zs a hml ha2
      exact ⟨b, by simp [hys, hb], hfb⟩

lemma mapM_error_kind {β γ : Type} (f : β → Except PyErr γ)
    (hf : ∀ x e, f x = .error e → e = PyErr.valueError) :
    ∀ (l : List β) (e : PyErr), l.mapM f = .error e → e = PyErr.valueError
  | [], e, h => by
    rw [List.mapM_nil] at h
    exact Except.noConfusion h
  | a :: l, e, h => by
    rw [List.mapM_cons] at h
    cases hfa : f a with
    | error e2 =>
      rw [hfa, exbind_error] at h
      rw [← Except.error.inj h]
      exact hf a e2 hfa
    | ok y =>
      rw [hfa, exbind_ok] at h
      cases hml : l.mapM f with
      | error e2 =>
        rw [hml, exbind_error] at h
        rw [← Except.error.inj h]
        exact mapM_error_kind f hf l e2 hml
      | ok zs =>
        rw [hml, exbind_ok] at h
        exact Except.noConfusion h

lemma parse_polygon_list_error_kind (s : String) (e : PyErr)
    (h : parse_polygon_list s = .error e) : e = PyErr.valueError := by
  unfold parse_polygon_list at h
  exact mapM_error_kind _
    (fun t e2 ht => mapM_error_kind pyFloatE pyFloatE_error_kind _ e2 ht)
    _ e h

/-- C8: for every area mapping whose `circle` or `polygon` string does
not match the expected token grammar (wrong separator count or a
non-numeric token), `get_polygon_coordinates` raises `ValueError` rather
than returning an empty or partial ring. -/
theorem claim_C8_malformed_strings_raise
    (single_area : List (String × PyObj)) (s : String)
    (h : (single_area.lookup "circle" = some (PyObj.str s)
            ∧ circle_well_formed s = false)
         ∨ (single_area.lookup "circle" = Option.none
            ∧ single_area.lookup "polygon" = some (PyObj.str s)
            ∧ polygon_well_formed s = false)) :
    get_polygon_coordinates single_area = .error .valueError := by
  unfold get_polygon_coordinates
  rcases h with ⟨hc, hwf⟩ | ⟨hc, hp, hwf⟩
  · rw [hc]
    show circle_ring (PyObj.str s) = .error .valueError
    unfold circle_ring
    rw [show asStr (PyObj.str s) = .ok s from rfl, exbind_ok]
    unfold circle_well_formed at hwf
    rcases hsp : splitOnChar ' ' s.data with _ | ⟨centre, _ | ⟨radiusStr, _ | _⟩⟩
    · rfl
    · rfl
    · rw [hsp] at hwf
      have hwf2 : (pair_token centre && float_token radiusStr) = false := hwf
      show (pyFloatE radiusStr >>= fun radius =>
          (match splitOnChar ',' centre with
           | [xs, ys] => do
             let x_centre ← pyFloatE xs
             let y_centre ← pyFloatE ys
             pure (get_all_circle_coords (x_centre : ℝ) (y_centre : ℝ)
               (radius : ℝ) 100)
           | _ => .error .valueError : Except PyErr (List (List ℝ)))) =
          .error .valueError
      rcases Bool.and_eq_false_iff.mp hwf2 with hbad | hbad
      · -- the centre is not a numeric pair
        cases hr : float_token radiusStr with
        | false =>
          rw [pyFloatE_of_not_float radiusStr hr, exbind_error]
        | true =>
          obtain ⟨q, hq⟩ : ∃ q, pyFloatE radiusStr = .ok q := by
            unfold float_token at hr
            cases hpf : pyFloat radiusStr with
            | none => rw [hpf] at hr; exact absurd hr (by simp)
            | some q => exact ⟨q, by simp [pyFloatE, hpf]⟩
          rw [hq, exbind_ok]
          unfold pair_token at hbad
          rcases hsc : splitOnChar ',' centre with _ | ⟨a, _ | ⟨b, _ | _⟩⟩
          · rfl
          · rfl
          · rw [hsc] at hbad
            have hbad2 : (float_token a && float_token b) = false := hbad
            show (pyFloatE a >>= fun x_centre =>
                pyFloatE b >>= fun y_centre =>
                (pure (get_all_circle_coords (x_centre : ℝ) (y_centre : ℝ)
                  (q : ℝ) 100) : Except PyErr (List (List ℝ)))) =
              .error .valueError
            rcases Bool.and_eq_false_iff.mp hbad2 with hfa | hfb
            · rw [pyFloatE_of_not_float a hfa, exbind_error]
            · cases hax : pyFloatE a with
              | error e2 =>
                rw [exbind_error, pyFloatE_error_kind a e2 hax]
              | ok qa =>
                rw [exbind_ok, pyFloatE_of_not_float b hfb, exbind_error]
          · rfl
      · -- the radius is not numeric
        rw [pyFloatE_of_not_float radiusStr hbad, exbind_error]
    · rfl
  · rw [hc, hp]
    show polygon_ring (PyObj.str s) = .error .valueError
    unfold polygon_ring
    rw [show asStr (PyObj.str s) = .ok s from rfl, exbind_ok]
    cases hpl : parse_polygon_list s with
    | error e =>
      rw [exbind_error, parse_polygon_list_error_kind s e hpl]
    | ok l =>
      rw [exbind_ok]
      unfold polygon_well_formed at hwf
      obtain ⟨t, ht, hpt⟩ : ∃ t ∈ polygon_tokens s, pair_token t = false := by
        rcases List.all_eq_false.mp hwf with ⟨t, ht, hpt⟩
        exact ⟨t, ht, by simpa using hpt⟩
      have hecc : ensure_counter_clockwise l = .error .valueError := by
        obtain ⟨y, hy, hfy⟩ :=
          mapM_ok_mem (fun t => (splitOnChar ',' t).mapM pyFloatE)
            (polygon_tokens s) l t hpl ht
        have hylen : y.length = (splitOnChar ',' t).length :=
          mapM_ok_length pyFloatE (splitOnChar ',' t) y hfy
        have hlen2 : y.length ≠ 2 := by
          unfold pair_token at hpt
          rcases hsc : splitOnChar ',' t with _ | ⟨a, _ | ⟨b, _ | ⟨c, rest⟩⟩⟩
          · rw [hsc] at hylen; rw [hylen]; simp
          · rw [hsc] at hylen; rw [hylen]; simp
          · -- a two-component token with a non-numeric part cannot parse
            exfalso
            rw [hsc] at hpt hfy
            have hpt2 : (float_token a && float_token b) = false := hpt
            obtain ⟨ya, zs, hfa, hml, _⟩ := mapM_ok_cons pyFloatE a [b] y hfy
            obtain ⟨yb, zs2, hfb, _, _⟩ := mapM_ok_cons pyFloatE b [] zs hml
            rcases Bool.and_eq_false_iff.mp hpt2 with hbad | hbad
            · rw [float_token_of_ok a ya hfa] at hbad
              exact Bool.noConfusion hbad
            · rw [float_token_of_ok b yb hfb] at hbad
              exact Bool.noConfusion hbad
          · rw [hsc] at hylen
            rw [hylen]
            simp only [List.length_cons]
            omega
        have hsa : signed_area l = .error .valueError := by
          unfold signed_area
          rw [if_neg]
          intro hall
          exact hlen2 (hall y hy)
        unfold ensure_counter_clockwise
        rw [hsa]
      rw [hecc, exbind_error]

theorem claim_C8_malformed_strings_raise_witness :
    (([("polygon", PyObj.str "1,2,3 4,5,6 1,2,3")].lookup "circle"
          = (Option.none : Option PyObj))
        ∧ [("polygon", PyObj.str "1,2,3 4,5,6 1,2,3")].lookup "polygon"
            = some (PyObj.str "1,2,3 4,5,6 1,2,3")
        ∧ polygon_well_formed "1,2,3 4,5,6 1,2,3" = false)
      ∧ get_polygon_coordinates [("polygon", PyObj.str "1,2,3 4,5,6 1,2,3")]
          = .error .valueError :=
  ⟨⟨rfl, rfl, by decide⟩,
   claim_C8_malformed_strings_raise _ "1,2,3 4,5,6 1,2,3"
     (Or.inr ⟨rfl, rfl, by decide⟩)⟩

/-! ## Claim C7: properties extraction is total on optional fields -/

/-- The six fields read from the alert root with `.get`. -/
def alert_field_keys : List String :=
  ["identifier", "sender", "sent", "status", "msgType", "scope"]

/-- The fourteen fields read from the `info` block with `.get`. -/
def info_field_keys : List String :=
  ["category", "event", "urgency", "severity", "certainty", "effective",
   "onset", "expires", "senderName", "headline", "description",
   "instruction", "web", "contact"]

/-- The twenty-one property keys, in the order the source emits them. -/
def properties_keys : List String :=
  alert_field_keys ++ info_field_keys ++ ["areaDesc"]

lemma dictGet_none (A : List (String × PyObj)) (k : String)
    (h : A.lookup k = Option.none) : dictGet A k = PyObj.none := by
  unfold dictGet
  rw [h]

/-- C7: for every alert tree containing the required `info` mapping and
`area` element (with its CAP-required `areaDesc`, so that
`get_area_desc` succeeds), `get_properties` does not raise; its output
has exactly the twenty-one listed keys in the listed order, and every
absent optional field (any of the twenty `.get` fields) maps to `None`. -/
theorem claim_C7_properties_total_and_ordered
    (A I : List (String × PyObj)) (areaV d : PyObj)
    (hinfo : A.lookup "info" = some (.dict I))
    (harea : I.lookup "area" = some areaV)
    (hdesc : get_area_desc areaV = .ok d) :
    ∃ l, get_properties (.dict A) = .ok l
      ∧ l.map Prod.fst = properties_keys
      ∧ (∀ k ∈ alert_field_keys, A.lookup k = Option.none →
          l.lookup k = some PyObj.none)
      ∧ (∀ k ∈ info_field_keys, I.lookup k = Option.none →
          l.lookup k = some PyObj.none) := by
  refine ⟨[("identifier", dictGet A "identifier"),
           ("sender", dictGet A "sender"),
           ("sent", dictGet A "sent"),
           ("status", dictGet A "status"),
           ("msgType", dictGet A "msgType"),
           ("scope", dictGet A "scope"),
           ("category", dictGet I "category"),
           ("event", dictGet I "event"),
           ("urgency", dictGet I "urgency"),
           ("severity", dictGet I "severity"),
           ("certainty", dictGet I "certainty"),
           ("effective", dictGet I "effective"),
           ("onset", dictGet I "onset"),
           ("expires", dictGet I "expires"),
           ("senderName", dictGet I "senderName"),
           ("headline", dictGet I "headline"),
           ("description", dictGet I "description"),
           ("instruction", dictGet I "instruction"),
           ("web", dictGet I "web"),
           ("contact", dictGet I "contact"),
           ("areaDesc", d)], ?_, ?_, ?_, ?_⟩
  · unfold get_properties
    have h2 : pyIndex A "info" = .ok (PyObj.dict I) := by
      unfold pyIndex; rw [hinfo]
    have h4 : dictGet I "area" = areaV := by
      unfold dictGet; rw [harea]
    simp only [show asDict (PyObj.dict A) = .ok A from rfl, exbind_ok, h2,
      show asDictAttr (PyObj.dict I) = .ok I from rfl, h4, hdesc]
    rfl
  · rfl
  · intro k hk hnone
    fin_cases hk <;> simp [List.lookup, dictGet_none _ _ hnone]
  · intro k hk hnone
    fin_cases hk <;> simp [List.lookup, dictGet_none _ _ hnone]

theorem claim_C7_properties_total_and_ordered_witness :
    (([("info", PyObj.dict [("area",
          PyObj.dict [("areaDesc", PyObj.str "X")])])].lookup "info"
        = some (PyObj.dict [("area",
            PyObj.dict [("areaDesc", PyObj.str "X")])]))
      ∧ ([("area", PyObj.dict [("areaDesc", PyObj.str "X")])].lookup "area"
          = some (PyObj.dict [("areaDesc", PyObj.str "X")]))
      ∧ get_area_desc (PyObj.dict [("areaDesc", PyObj.str "X")])
          = .ok (PyObj.str "X"))
      ∧ (∃ l, get_properties (PyObj.dict [("info", PyObj.dict [("area",
            PyObj.dict [("areaDesc", PyObj.str "X")])])]) = .ok l
          ∧ l.map Prod.fst = properties_keys
          ∧ (∀ k ∈ alert_field_keys,
              [("info", PyObj.dict [("area",
                PyObj.dict [("areaDesc", PyObj.str "X")])])].lookup k
                  = Option.none →
              l.lookup k = some PyObj.none)
          ∧ (∀ k ∈ info_field_keys,
              [("area", PyObj.dict [("areaDesc",
                PyObj.str "X")])].lookup k = Option.none →
              l.lookup k = some PyObj.none)) :=
  ⟨⟨rfl, rfl, rfl⟩,
   claim_C7_properties_total_and_ordered _ _ _ _ rfl rfl rfl⟩

/-! ## Claim C2: namespace prefix normalization

The regex only strips the literal prefix `cap:`; other prefixes are left
unchanged, refuting the "every namespace prefix" reading.  The amended
statement (only `cap:` is stripped, nothing else altered) is proved in
generality below. -/

lemma stripCapAux_nil : stripCapAux [] = [] := by
  rw [stripCapAux.eq_def]

lemma stripCapAux_cons_ne (c : Char) (rest : List Char) (h : ¬c = '<') :
    stripCapAux (c :: rest) = c :: stripCapAux rest := by
  rw [stripCapAux.eq_def]
  split <;> simp_all

lemma stripCapAux_close (w : Char) (r : List Char) (hw : isWordChar w = true) :
    stripCapAux ('<' :: '/' :: 'c' :: 'a' :: 'p' :: ':' :: w :: r)
      = '<' :: '/' :: stripCapAux (w :: r) := by
  rw [stripCapAux.eq_def]
  simp [hw]

lemma stripCapAux_open (w : Char) (r : List Char) (hw : isWordChar w = true) :
    stripCapAux ('<' :: 'c' :: 'a' :: 'p' :: ':' :: w :: r)
      = '<' :: stripCapAux (w :: r) := by
  rw [stripCapAux.eq_def]
  simp [hw]

lemma stripCapAux_open_other (c1 : Char) (rest : List Char)
    (h1 : ¬c1 = '/') (h2 : ¬c1 = 'c') :
    stripCapAux ('<' :: c1 :: rest) = '<' :: stripCapAux (c1 :: rest) := by
  rw [stripCapAux.eq_def]
  split <;> simp_all
  rename_i heq
  exact heq.1.symm

lemma stripCapAux_close_other (c2 : Char) (rest : List Char) (h : ¬c2 = 'c') :
    stripCapAux ('<' :: '/' :: c2 :: rest)
      = '<' :: stripCapAux ('/' :: c2 :: rest) := by
  rw [stripCapAux.eq_def]
  split <;> simp_all
  rename_i heq
  exact heq.1.symm

/-- C2 (counterexample): the namespace-normalization operation does not
remove an arbitrary prefix: `<ns:info>x</ns:info>` is returned unchanged,
not mapped to `<info>x</info>`. -/
theorem claim_C2_counterexample_other_prefix_kept :
    preprocess_alert "<ns:info>x</ns:info>" ≠ "<info>x</info>"
      ∧ preprocess_alert "<ns:info>x</ns:info>" = "<ns:info>x</ns:info>" := by
  have heval : preprocess_alert "<ns:info>x</ns:info>"
      = "<ns:info>x</ns:info>" := by
    simp only [preprocess_alert]
    simp [stripCapAux_cons_ne, stripCapAux_open_other, stripCapAux_close_other,
      stripCapAux_nil]
  refine ⟨?_, heval⟩
  rw [heval]
  decide
lemma drop_length_add {β : Type} (a b : List β) (i : ℕ) :
    (a ++ b).drop (a.length + i) = b.drop i := by
  induction a with
  | nil => simp
  | cons c t ih =>
    have h : (c :: t).length + i = (t.length + i) + 1 := by
      simp [List.length_cons]
      omega
    rw [List.cons_append, h, List.drop_succ_cons, ih]

lemma is_cap_open_at_shift (a b : List Char) (i : ℕ) :
    is_cap_open_at (a ++ b) (a.length + i) = is_cap_open_at b i := by
  unfold is_cap_open_at
  rw [drop_length_add]

lemma is_cap_close_at_shift (a b : List Char) (i : ℕ) :
    is_cap_close_at (a ++ b) (a.length + i) = is_cap_close_at b i := by
  unfold is_cap_close_at
  rw [drop_length_add]

lemma removed_at_zero (l : List Char) : removed_at l 0 = false := rfl

/-- One term of the `removed_at` disjunction, shifted across a prefix of
length `n` that contributes no removals at or beyond position `n`. -/
lemma removed_term_shift (P Q : ℕ → Bool) (n k d : ℕ)
    (hshift : ∀ i, P (n + i) = Q i)
    (hmid : ∀ t, 1 ≤ t → t < n → P t = false)
    (h0 : n + k = d → P 0 = false)
    ( _hd1 : 1 ≤ d) :
    (decide (d ≤ n + k) && P (n + k - d)) = (decide (d ≤ k) && Q (k - d)) := by
  rcases Nat.lt_or_ge k d with h | h
  · have hr : decide (d ≤ k) = false := by simp; omega
    rw [hr, Bool.false_and]
    rcases Nat.lt_or_ge (n + k) d with h2 | h2
    · have hl : decide (d ≤ n + k) = false := by simp; omega
      rw [hl, Bool.false_and]
    · have hl : decide (d ≤ n + k) = true := by simp; omega
      rw [hl, Bool.true_and]
      rcases Nat.eq_zero_or_pos (n + k - d) with ht | ht
      · rw [ht]
        exact h0 (by omega)
      · exact hmid _ ht (by omega)
  · have h1 : decide (d ≤ k) = true := by simp; omega
    have h2 : decide (d ≤ n + k) = true := by simp; omega
    rw [h1, h2, Bool.true_and, Bool.true_and,
      show n + k - d = n + (k - d) from by omega, hshift]

/-- Deletions at positions at or beyond `a.length` are the deletions of the
suffix, provided the prefix contributes no match whose `cap:` reaches that
far. -/
lemma removed_at_shift (a b : List Char) (k : ℕ)
    (hmo : ∀ t, 1 ≤ t → t < a.length → is_cap_open_at (a ++ b) t = false)
    (hmc : ∀ t, 1 ≤ t → t < a.length → is_cap_close_at (a ++ b) t = false)
    (ho0 : a.length + k ≤ 4 → is_cap_open_at (a ++ b) 0 = false)
    (hc0 : a.length + k ≤ 5 → is_cap_close_at (a ++ b) 0 = false) :
    removed_at (a ++ b) (a.length + k) = removed_at b k := by
  unfold removed_at
  simp only [List.any_cons, List.any_nil, Bool.or_false]
  rw [removed_term_shift (is_cap_open_at (a ++ b)) (is_cap_open_at b)
        a.length k 1 (is_cap_open_at_shift a b) hmo (fun h => ho0 (by omega))
        (by norm_num),
      removed_term_shift (is_cap_open_at (a ++ b)) (is_cap_open_at b)
        a.length k 2 (is_cap_open_at_shift a b) hmo (fun h => ho0 (by omega))
        (by norm_num),
      removed_term_shift (is_cap_open_at (a ++ b)) (is_cap_open_at b)
        a.length k 3 (is_cap_open_at_shift a b) hmo (fun h => ho0 (by omega))
        (by norm_num),
      removed_term_shift (is_cap_open_at (a ++ b)) (is_cap_open_at b)
        a.length k 4 (is_cap_open_at_shift a b) hmo (fun h => ho0 (by omega))
        (by norm_num),
      removed_term_shift (is_cap_close_at (a ++ b)) (is_cap_close_at b)
        a.length k 2 (is_cap_close_at_shift a b) hmc (fun h => hc0 (by omega))
        (by norm_num),
      removed_term_shift (is_cap_close_at (a ++ b)) (is_cap_close_at b)
        a.length k 3 (is_cap_close_at_shift a b) hmc (fun h => hc0 (by omega))
        (by norm_num),
      removed_term_shift (is_cap_close_at (a ++ b)) (is_cap_close_at b)
        a.length k 4 (is_cap_close_at_shift a b) hmc (fun h => hc0 (by omega))
        (by norm_num),
      removed_term_shift (is_cap_close_at (a ++ b)) (is_cap_close_at b)
        a.length k 5 (is_cap_close_at_shift a b) hmc (fun h => hc0 (by omega))
        (by norm_num)]

/-- Splitting `cap_strip_spec` at a prefix across which deletions do not
interact. -/
lemma cap_strip_spec_append (a b : List Char)
    (hshift : ∀ k, removed_at (a ++ b) (a.length + k) = removed_at b k) :
    cap_strip_spec (a ++ b)
      = (((List.range a.length).filter fun j => !removed_at (a ++ b) j).map
          fun j => (a ++ b).getD j ' ')
        ++ cap_strip_spec b := by
  unfold cap_strip_spec
  rw [List.length_append, List.range_add, List.filter_append, List.map_append]
  congr 1
  rw [List.filter_map]
  have hpred : ((fun j => !removed_at (a ++ b) j) ∘ (fun k => a.length + k))
      = fun k => !removed_at b k := by
    funext k
    simp [Function.comp, hshift k]
  rw [hpred, List.map_map]
  apply List.map_congr_left
  intro k hk
  have hk2 : k < b.length := by
    have := (List.mem_filter.mp hk).1
    simpa using this
  show (a ++ b).getD (a.length + k) ' ' = b.getD k ' '
  rw [List.getD_eq_getElem?_getD, List.getD_eq_getElem?_getD,
    List.getElem?_append_right (by omega), Nat.add_sub_cancel_left]

/-- Peeling one head character that starts no match: it is kept and the
deletions of the tail are unchanged. -/
lemma cap_strip_spec_keep (c : Char) (b : List Char)
    (hopen : is_cap_open_at (c :: b) 0 = false)
    (hclose : is_cap_close_at (c :: b) 0 = false) :
    cap_strip_spec (c :: b) = c :: cap_strip_spec b := by
  have hshift : ∀ k, removed_at ([c] ++ b) ([c].length + k) = removed_at b k := by
    intro k
    exact removed_at_shift [c] b k
      (by intro t h1 h2; simp at h2; omega)
      (by intro t h1 h2; simp at h2; omega)
      (fun _ => hopen) (fun _ => hclose)
  have happ := cap_strip_spec_append [c] b hshift
  have hfirst : (((List.range ([c]).length).filter
      fun j => !removed_at ([c] ++ b) j).map
        fun j => ([c] ++ b).getD j ' ') = [c] := rfl
  rw [hfirst] at happ
  exact happ

/-- Peeling an open-tag match `<cap:w...`: the `<` is kept, `cap:` is
deleted, and the rest continues from the word character. -/
lemma cap_strip_spec_open (w : Char) (r : List Char)
    (hw : isWordChar w = true) :
    cap_strip_spec ('<' :: 'c' :: 'a' :: 'p' :: ':' :: w :: r)
      = '<' :: cap_strip_spec (w :: r) := by
  have hshift : ∀ k,
      removed_at (['<', 'c', 'a', 'p', ':'] ++ (w :: r))
          ((['<', 'c', 'a', 'p', ':'] : List Char).length + k)
        = removed_at (w :: r) k := by
    intro k
    refine removed_at_shift ['<', 'c', 'a', 'p', ':'] (w :: r) k ?_ ?_ ?_ ?_
    · intro t h1 h2
      simp at h2
      interval_cases t <;> rfl
    · intro t h1 h2
      simp at h2
      interval_cases t <;> rfl
    · intro h
      exact absurd h (by simp only [List.length_cons, List.length_nil]; omega)
    · intro h
      rfl
  have happ := cap_strip_spec_append ['<', 'c', 'a', 'p', ':'] (w :: r) hshift
  have hfirst : (((List.range
      (['<', 'c', 'a', 'p', ':'] : List Char).length).filter
        fun j => !removed_at (['<', 'c', 'a', 'p', ':'] ++ (w :: r)) j).map
          fun j => (['<', 'c', 'a', 'p', ':'] ++ (w :: r)).getD j ' ')
      = ['<'] := by
    have e0 : is_cap_open_at ('<' :: 'c' :: 'a' :: 'p' :: ':' :: w :: r) 0
        = true := hw
    have h1 : removed_at ('<' :: 'c' :: 'a' :: 'p' :: ':' :: w :: r) 1
        = true := by
      unfold removed_at
      simp [e0]
    have h2 : removed_at ('<' :: 'c' :: 'a' :: 'p' :: ':' :: w :: r) 2
        = true := by
      unfold removed_at
      simp [e0]
    have h3 : removed_at ('<' :: 'c' :: 'a' :: 'p' :: ':' :: w :: r) 3
        = true := by
      unfold removed_at
      simp [e0]
    have h4 : removed_at ('<' :: 'c' :: 'a' :: 'p' :: ':' :: w :: r) 4
        = true := by
      unfold removed_at
      simp [e0]
    rw [show (List.range (['<', 'c', 'a', 'p', ':'] : List Char).length)
        = [0, 1, 2, 3, 4] from rfl]
    simp [List.filter, h1, h2, h3, h4, removed_at_zero]
  rw [hfirst] at happ
  exact happ

/-- Peeling a close-tag match `</cap:w...`: `</` is kept, `cap:` deleted. -/
lemma cap_strip_spec_close (w : Char) (r : List Char)
    (hw : isWordChar w = true) :
    cap_strip_spec ('<' :: '/' :: 'c' :: 'a' :: 'p' :: ':' :: w :: r)
      = '<' :: '/' :: cap_strip_spec (w :: r) := by
  have hshift : ∀ k,
      removed_at (['<', '/', 'c', 'a', 'p', ':'] ++ (w :: r))
          ((['<', '/', 'c', 'a', 'p', ':'] : List Char).length + k)
        = removed_at (w :: r) k := by
    intro k
    refine removed_at_shift ['<', '/', 'c', 'a', 'p', ':'] (w :: r) k ?_ ?_ ?_ ?_
    · intro t h1 h2
      simp at h2
      interval_cases t <;> rfl
    · intro t h1 h2
      simp at h2
      interval_cases t <;> rfl
    · intro h
      exact absurd h (by simp only [List.length_cons, List.length_nil]; omega)
    · intro h
      exact absurd h (by simp only [List.length_cons, List.length_nil]; omega)
  have happ := cap_strip_spec_append ['<', '/', 'c', 'a', 'p', ':'] (w :: r)
    hshift
  have hfirst : (((List.range
      (['<', '/', 'c', 'a', 'p', ':'] : List Char).length).filter
        fun j => !removed_at (['<', '/', 'c', 'a', 'p', ':'] ++ (w :: r)) j).map
          fun j => (['<', '/', 'c', 'a', 'p', ':'] ++ (w :: r)).getD j ' ')
      = ['<', '/'] := by
    have e0 : is_cap_close_at ('<' :: '/' :: 'c' :: 'a' :: 'p' :: ':' :: w :: r) 0
        = true := hw
    have h2 : removed_at ('<' :: '/' :: 'c' :: 'a' :: 'p' :: ':' :: w :: r) 2
        = true := by
      unfold removed_at
      simp [e0]
    have h3 : removed_at ('<' :: '/' :: 'c' :: 'a' :: 'p' :: ':' :: w :: r) 3
        = true := by
      unfold removed_at
      simp [e0]
    have h4 : removed_at ('<' :: '/' :: 'c' :: 'a' :: 'p' :: ':' :: w :: r) 4
        = true := by
      unfold removed_at
      simp [e0]
    have h5 : removed_at ('<' :: '/' :: 'c' :: 'a' :: 'p' :: ':' :: w :: r) 5
        = true := by
      unfold removed_at
      simp [e0]
    have h1 : removed_at ('<' :: '/' :: 'c' :: 'a' :: 'p' :: ':' :: w :: r) 1
        = false := rfl
    rw [show (List.range (['<', '/', 'c', 'a', 'p', ':'] : List Char).length)
        = [0, 1, 2, 3, 4, 5] from rfl]
    simp [List.filter, h1, h2, h3, h4, h5, removed_at_zero]
  rw [hfirst] at happ
  exact happ

/-- A position whose context rules out the open-tag shape has no open
match starting at 0. -/
lemma is_cap_open_at_zero_false (c : Char) (rest : List Char)
    (h : ∀ (w : Char) (r2 : List Char),
      c = '<' → rest = 'c' :: 'a' :: 'p' :: ':' :: w :: r2 → False) :
    is_cap_open_at (c :: rest) 0 = false := by
  unfold is_cap_open_at
  split
  · rename_i w r2 heq
    simp only [List.drop_zero] at heq
    injection heq with hce hre
    exact (h w r2 hce hre).elim
  · rfl

/-- A position whose context rules out the close-tag shape has no close
match starting at 0. -/
lemma is_cap_close_at_zero_false (c : Char) (rest : List Char)
    (h : ∀ (w : Char) (r2 : List Char),
      c = '<' → rest = '/' :: 'c' :: 'a' :: 'p' :: ':' :: w :: r2 → False) :
    is_cap_close_at (c :: rest) 0 = false := by
  unfold is_cap_close_at
  split
  · rename_i w r2 heq
    simp only [List.drop_zero] at heq
    injection heq with hce hre
    exact (h w r2 hce hre).elim
  · rfl

/-- When no match starts at the head, the scanner keeps the head
character and continues on the tail. -/
lemma stripCapAux_cons_nomatch (c : Char) (rest : List Char)
    (ho : is_cap_open_at (c :: rest) 0 = false)
    (hc : is_cap_close_at (c :: rest) 0 = false) :
    stripCapAux (c :: rest) = c :: stripCapAux rest := by
  rw [stripCapAux.eq_def]
  split
  · rename_i heq
    exact absurd heq (by simp)
  · rename_i w rest2 heq
    injection heq with hce hre
    subst hce
    subst hre
    have hw : isWordChar w = false := hc
    simp [hw]
  · rename_i w rest2 heq
    injection heq with hce hre
    subst hce
    subst hre
    have hw : isWordChar w = false := ho
    simp [hw]
  · rename_i c2 rest2 hx1 hx2 heq
    injection heq with hce hre
    rw [← hce, ← hre]

/-- The left-to-right scanner computes exactly the position-based
deletion specification. -/
lemma stripCapAux_eq_spec : ∀ l : List Char, stripCapAux l = cap_strip_spec l := by
  intro l
  induction l using stripCapAux.induct with
  | case1 =>
    rw [stripCapAux_nil]
    rfl
  | case2 w rest2 hw ih =>
    rw [stripCapAux_close w rest2 hw, cap_strip_spec_close w rest2 hw, ih]
  | case3 w rest2 hw ih =>
    have hw' : isWordChar w = false := by simpa using hw
    have ho : is_cap_open_at
        ('<' :: '/' :: 'c' :: 'a' :: 'p' :: ':' :: w :: rest2) 0 = false := rfl
    have hcl : is_cap_close_at
        ('<' :: '/' :: 'c' :: 'a' :: 'p' :: ':' :: w :: rest2) 0 = false := hw'
    rw [stripCapAux_cons_nomatch _ _ ho hcl, cap_strip_spec_keep _ _ ho hcl, ih]
  | case4 w rest2 hw ih =>
    rw [stripCapAux_open w rest2 hw, cap_strip_spec_open w rest2 hw, ih]
  | case5 w rest2 hw ih =>
    have hw' : isWordChar w = false := by simpa using hw
    have ho : is_cap_open_at
        ('<' :: 'c' :: 'a' :: 'p' :: ':' :: w :: rest2) 0 = false := hw'
    have hcl : is_cap_close_at
        ('<' :: 'c' :: 'a' :: 'p' :: ':' :: w :: rest2) 0 = false := rfl
    rw [stripCapAux_cons_nomatch _ _ ho hcl, cap_strip_spec_keep _ _ ho hcl, ih]
  | case6 c rest h1 h2 ih =>
    have ho := is_cap_open_at_zero_false c rest h2
    have hcl := is_cap_close_at_zero_false c rest h1
    rw [stripCapAux_cons_nomatch c rest ho hcl, cap_strip_spec_keep c rest ho hcl, ih]

/-- Claim C2 (amended): `preprocess_alert` rewrites every raw XML text by
deleting exactly the characters `cap:` of each tag prefix occurrence
`<cap:` or `</cap:` that is followed by a word character, and keeps every
other character unchanged — stated as equality, for every input string,
with the position-based deletion specification `cap_strip_spec`; in
particular `<cap:info>x</cap:info>` becomes `<info>x</info>`. -/
theorem claim_C2_amended :
    (∀ xml : String, preprocess_alert xml = String.mk (cap_strip_spec xml.data))
      ∧ preprocess_alert "<cap:info>x</cap:info>" = "<info>x</info>" := by
  constructor
  · intro xml
    exact congrArg String.mk (stripCapAux_eq_spec xml.data)
  · calc preprocess_alert "<cap:info>x</cap:info>"
        = String.mk (cap_strip_spec ("<cap:info>x</cap:info>" : String).data) :=
          congrArg String.mk (stripCapAux_eq_spec _)
      _ = "<info>x</info>" := by decide


/-! ## Claim C5: circle point count and distance -/

lemma abs_round5_sub (x : ℝ) : |round5 x - x| ≤ 1 / 200000 := by
  unfold round5
  have h := abs_sub_round (x * 100000)
  have he : (round (x * 100000) : ℝ) / 100000 - x
      = ((round (x * 100000) : ℝ) - x * 100000) / 100000 := by ring
  rw [he, abs_div]
  have h100 : |(100000 : ℝ)| = 100000 := by norm_num
  rw [h100]
  rw [div_le_iff₀ (by norm_num : (0:ℝ) < 100000)]
  calc |(round (x * 100000) : ℝ) - x * 100000| ≤ 1 / 2 := by
        rw [abs_sub_comm]; exact h
    _ ≤ 1 / 200000 * 100000 := by norm_num

lemma sqrt_dist_bound_core (r c s u v : ℝ) (hr : 0 ≤ r)
    (hpyth : s ^ 2 + c ^ 2 = 1) (hc : |c| ≤ 1) (hs : |s| ≤ 1)
    (h1 : |u - r * c| ≤ 1 / 200000) (h2 : |v - r * s| ≤ 1 / 200000) :
    |Real.sqrt (u ^ 2 + v ^ 2) - r| ≤ 1 / 10000 := by
  have hce : |c * (u - r * c)| ≤ 1 / 200000 := by
    rw [abs_mul]
    calc |c| * |u - r * c| ≤ 1 * (1 / 200000) :=
          mul_le_mul hc h1 (abs_nonneg _) zero_le_one
      _ = 1 / 200000 := one_mul _
  have hse : |s * (v - r * s)| ≤ 1 / 200000 := by
    rw [abs_mul]
    calc |s| * |v - r * s| ≤ 1 * (1 / 200000) :=
          mul_le_mul hs h2 (abs_nonneg _) zero_le_one
      _ = 1 / 200000 := one_mul _
  obtain ⟨hce1, hce2⟩ := abs_le.mp hce
  obtain ⟨hse1, hse2⟩ := abs_le.mp hse
  obtain ⟨h1a, h1b⟩ := abs_le.mp h1
  obtain ⟨h2a, h2b⟩ := abs_le.mp h2
  have he1sq : (u - r * c) ^ 2 ≤ (1 / 200000) ^ 2 := sq_le_sq' h1a h1b
  have he2sq : (v - r * s) ^ 2 ≤ (1 / 200000) ^ 2 := sq_le_sq' h2a h2b
  have hrce1 : r * (c * (u - r * c)) ≤ r * (1 / 200000) :=
    mul_le_mul_of_nonneg_left hce2 hr
  have hrce2 : r * (-(1 / 200000)) ≤ r * (c * (u - r * c)) :=
    mul_le_mul_of_nonneg_left hce1 hr
  have hrse1 : r * (s * (v - r * s)) ≤ r * (1 / 200000) :=
    mul_le_mul_of_nonneg_left hse2 hr
  have hrse2 : r * (-(1 / 200000)) ≤ r * (s * (v - r * s)) :=
    mul_le_mul_of_nonneg_left hse1 hr
  have hexp : u ^ 2 + v ^ 2
      = r ^ 2 * (s ^ 2 + c ^ 2) + 2 * (r * (c * (u - r * c)))
        + 2 * (r * (s * (v - r * s)))
        + (u - r * c) ^ 2 + (v - r * s) ^ 2 := by ring
  have hupper : u ^ 2 + v ^ 2 ≤ (r + 1 / 10000) ^ 2 := by
    rw [hexp, hpyth]
    have hgoal : (r + 1 / 10000) ^ 2 = r ^ 2 * 1 + 2 * (r * (1 / 10000))
        + (1 / 10000) ^ 2 := by ring
    rw [hgoal]
    have hq1 : (u - r * c) ^ 2 + (v - r * s) ^ 2 ≤ (1 / 10000) ^ 2 := by
      calc (u - r * c) ^ 2 + (v - r * s) ^ 2
          ≤ (1 / 200000) ^ 2 + (1 / 200000) ^ 2 := add_le_add he1sq he2sq
        _ ≤ (1 / 10000) ^ 2 := by norm_num
    have hhalf : r * (1 / 200000) + r * (1 / 200000) ≤ r * (1 / 10000) := by
      linarith
    linarith
  have hsqrtu : Real.sqrt (u ^ 2 + v ^ 2) ≤ r + 1 / 10000 := by
    have h := Real.sqrt_le_sqrt hupper
    rwa [Real.sqrt_sq (by linarith : (0:ℝ) ≤ r + 1 / 10000)] at h
  have hsqrtl : r - 1 / 10000 ≤ Real.sqrt (u ^ 2 + v ^ 2) := by
    rcases le_or_lt r (1 / 10000) with hcase | hcase
    · have := Real.sqrt_nonneg (u ^ 2 + v ^ 2)
      linarith
    · have hlow : (r - 1 / 10000) ^ 2 ≤ u ^ 2 + v ^ 2 := by
        rw [hexp, hpyth]
        have hgoal : (r - 1 / 10000) ^ 2 = r ^ 2 * 1 - 2 * (r * (1 / 10000))
            + (1 / 10000) ^ 2 := by ring
        rw [hgoal]
        have hq3 : (0:ℝ) ≤ (u - r * c) ^ 2 := sq_nonneg _
        have hq4 : (0:ℝ) ≤ (v - r * s) ^ 2 := sq_nonneg _
        -- t^2 + 2 r eps + 2 r eps <= 2 r t, using r > t
        have hkey : (1 / 10000 : ℝ) * (1 / 10000)
            ≤ r * (1 / 10000) := by
          have := mul_le_mul_of_nonneg_right (le_of_lt hcase)
            (by norm_num : (0:ℝ) ≤ 1 / 10000)
          linarith
        linarith
      have h := Real.sqrt_le_sqrt hlow
      rwa [Real.sqrt_sq (by linarith : (0:ℝ) ≤ r - 1 / 10000)] at h
  rw [abs_le]
  constructor <;> linarith

lemma circle_coord_dist (theta x y r : ℝ) (hr : 0 ≤ r) :
    |Real.sqrt (((get_circle_coord theta x y r).getD 0 0 - x) ^ 2
      + ((get_circle_coord theta x y r).getD 1 0 - y) ^ 2) - r|
      ≤ 1 / 10000 := by
  have hgd0 : (get_circle_coord theta x y r).getD 0 0
      = round5 (r * Real.cos theta + x) := by
    simp only [get_circle_coord, List.getD_cons_zero]
  have hgd1 : (get_circle_coord theta x y r).getD 1 0
      = round5 (r * Real.sin theta + y) := by
    simp only [get_circle_coord, List.getD_cons_succ, List.getD_cons_zero]
  rw [hgd0, hgd1]
  have h1 : |(round5 (r * Real.cos theta + x) - x) - r * Real.cos theta|
      ≤ 1 / 200000 := by
    rw [show (round5 (r * Real.cos theta + x) - x) - r * Real.cos theta
        = round5 (r * Real.cos theta + x) - (r * Real.cos theta + x) from
        by ring]
    exact abs_round5_sub _
  have h2 : |(round5 (r * Real.sin theta + y) - y) - r * Real.sin theta|
      ≤ 1 / 200000 := by
    rw [show (round5 (r * Real.sin theta + y) - y) - r * Real.sin theta
        = round5 (r * Real.sin theta + y) - (r * Real.sin theta + y) from
        by ring]
    exact abs_round5_sub _
  exact sqrt_dist_bound_core r (Real.cos theta) (Real.sin theta)
    (round5 (r * Real.cos theta + x) - x)
    (round5 (r * Real.sin theta + y) - y) hr
    (Real.sin_sq_add_cos_sq theta) (Real.abs_cos_le_one theta)
    (Real.abs_sin_le_one theta) h1 h2

lemma get_all_circle_coords_mem (x y r : ℝ) (n : ℕ) (p : List ℝ)
    (hp : p ∈ get_all_circle_coords x y r n) :
    ∃ theta, p = get_circle_coord theta x y r := by
  unfold get_all_circle_coords at hp
  rcases List.mem_append.mp hp with h1 | h2
  · rcases List.mem_map.mp h1 with ⟨theta, _, rfl⟩
    exact ⟨theta, rfl⟩
  · rcases List.mem_map.mp (List.mem_of_mem_take h2) with ⟨theta, _, rfl⟩
    exact ⟨theta, rfl⟩

lemma get_all_circle_coords_length (x y r : ℝ) (n : ℕ) (hn : 1 ≤ n) :
    (get_all_circle_coords x y r n).length = n + 1 := by
  unfold get_all_circle_coords
  simp [List.length_append, List.length_take, List.length_map,
    List.length_range]
  omega

/-- C5: for every centre, nonnegative radius `r` and `n ≥ 3`,
`get_all_circle_coords x y r n` returns exactly `n + 1` points (the `n`
generated points plus the first repeated at the end, so the last equals
the head), and every returned point lies at distance `r` from the centre
within the rounding tolerance `1 / 10000`. -/
theorem claim_C5_circle_count_and_distance (x y r : ℝ) (n : ℕ)
    (hn : 3 ≤ n) (hr : 0 ≤ r) :
    (get_all_circle_coords x y r n).length = n + 1
      ∧ (get_all_circle_coords x y r n).getLast?
          = (get_all_circle_coords x y r n).head?
      ∧ ∀ p ∈ get_all_circle_coords x y r n,
          |Real.sqrt ((p.getD 0 0 - x) ^ 2 + (p.getD 1 0 - y) ^ 2) - r|
            ≤ 1 / 10000 := by
  refine ⟨get_all_circle_coords_length x y r n (by omega), ?_, ?_⟩
  · exact (get_all_circle_coords_closed x y r n (by omega)).symm
  · intro p hp
    obtain ⟨theta, rfl⟩ := get_all_circle_coords_mem x y r n p hp
    exact circle_coord_dist theta x y r hr

theorem claim_C5_circle_count_and_distance_witness :
    ((3 : ℕ) ≤ 3 ∧ (0 : ℝ) ≤ 1)
      ∧ ((get_all_circle_coords 0 0 1 3).length = 3 + 1
          ∧ (get_all_circle_coords 0 0 1 3).getLast?
              = (get_all_circle_coords 0 0 1 3).head?
          ∧ ∀ p ∈ get_all_circle_coords 0 0 1 3,
              |Real.sqrt ((p.getD 0 0 - 0) ^ 2 + (p.getD 1 0 - 0) ^ 2) - 1|
                ≤ 1 / 10000) :=
  ⟨⟨le_refl 3, by norm_num⟩,
   claim_C5_circle_count_and_distance 0 0 1 3 (le_refl 3) (by norm_num)⟩

/-! ## Claim C1: `to_geojson` returns serialized text, not the object

The source ends with `return json.dumps(result, indent=4)`, so the
function returns the serialized JSON *text* of the FeatureCollection,
although its own annotation and docstring promise a `dict` and the CLI
collaborator applies `json.dumps` to the result again.  The theorem
exhibits this: every successful result is the external serializer applied
to the assembled FeatureCollection object. -/

/-- C1: for every parser, serializer and input on which conversion
succeeds, `to_geojson` returns `dumps` applied to the FeatureCollection
object — serialized text — rather than the structured FeatureCollection
object itself (the serialization is performed inside the function, not
left to the external collaborator as the spec prescribes). -/
theorem claim_C1_to_geojson_returns_serialized_text
    (parse : String → Except PyErr PyObj) (dumps : PyObj → String)
    (xml : String) (out : String)
    (h : to_geojson parse dumps xml = .ok out) :
    ∃ props geom, out = dumps (feature_collection props geom) := by
  unfold to_geojson at h
  dsimp only at h
  cases hp : parse (preprocess_alert xml) with
  | error e => rw [hp, exbind_error] at h; exact Except.noConfusion h
  | ok data =>
    rw [hp, exbind_ok] at h
    cases hd : asDict data with
    | error e => rw [hd, exbind_error] at h; exact Except.noConfusion h
    | ok dataD =>
      rw [hd, exbind_ok] at h
      cases ha : pyIndex dataD "alert" with
      | error e => rw [ha, exbind_error] at h; exact Except.noConfusion h
      | ok alert =>
        rw [ha, exbind_ok] at h
        cases hprops : get_properties alert with
        | error e => rw [hprops, exbind_error] at h; exact Except.noConfusion h
        | ok props =>
          rw [hprops, exbind_ok] at h
          cases had : asDict alert with
          | error e => rw [had, exbind_error] at h; exact Except.noConfusion h
          | ok alertD =>
            rw [had, exbind_ok] at h
            cases hi : pyIndex alertD "info" with
            | error e => rw [hi, exbind_error] at h; exact Except.noConfusion h
            | ok info =>
              rw [hi, exbind_ok] at h
              cases hid : asDict info with
              | error e =>
                rw [hid, exbind_error] at h; exact Except.noConfusion h
              | ok infoD =>
                rw [hid, exbind_ok] at h
                cases har : pyIndex infoD "area" with
                | error e =>
                  rw [har, exbind_error] at h; exact Except.noConfusion h
                | ok area =>
                  rw [har, exbind_ok] at h
                  cases hg : get_geometry area with
                  | error e =>
                    rw [hg, exbind_error] at h; exact Except.noConfusion h
                  | ok geom =>
                    rw [hg, exbind_ok] at h
                    exact ⟨props, geom, (Except.ok.inj h).symm⟩

theorem claim_C1_to_geojson_returns_serialized_text_witness :
    (to_geojson
        (fun _ => .ok (PyObj.dict [("alert", PyObj.dict [("info",
          PyObj.dict [("area",
            PyObj.dict [("areaDesc", PyObj.str "X")])])])]))
        (fun _ => "SERIALIZED-TEXT") "<alert/>"
      = .ok "SERIALIZED-TEXT")
      ∧ (∃ props geom, "SERIALIZED-TEXT"
          = (fun (_ : PyObj) => "SERIALIZED-TEXT")
              (feature_collection props geom)) :=
  ⟨by rfl,
   claim_C1_to_geojson_returns_serialized_text
     (fun _ => .ok (PyObj.dict [("alert", PyObj.dict [("info",
       PyObj.dict [("area", PyObj.dict [("areaDesc", PyObj.str "X")])])])]))
     (fun _ => "SERIALIZED-TEXT") "<alert/>" "SERIALIZED-TEXT" (by rfl)⟩

